import Mathlib

/-!
Shallow embedding of the synthetic language-distribution generator in
src/Tribal_Knowledge/generate_dummy_data.py.

Modelling conventions:
* Python floats are modelled as exact rationals; the claims at issue are
  structural, not float-rounding dependent.
* Python dicts (insertion ordered) are modelled as association lists.
* Draws from the two pseudo-random sources are modelled by explicit oracle
  arguments.  numpy draws (seeded by the module-level np.random.seed(42) at
  line 32) and draws from the Python stdlib random module (line 239, never
  seeded by this module) are kept in separate oracle components, mirroring
  the fact that they are two independent generator states.
* np.random.choice(range(n), p) returns an index below n; the oracle supplies
  a natural number that is reduced modulo n, so every valid index is
  representable.  np.random.choice raises ValueError when the candidate set
  is empty, when the probability vector contains NaN (obtained here from the
  0/0 normalisation when all weights are zero), or when it has a negative
  entry; these failure modes are modelled as Except.error values.
* Python int() applied to a non-negative float is floor, modelled by
  Int.floor on rationals.
-/

namespace TribalKnowledge

abbrev Affinities := List (String × List (String × ℚ))

abbrev Alloc := List (String × ℤ)

abbrev Corpus := List (String × List (String × Alloc))

/-- Association-list lookup with a default, modelling a Python dict read. -/
def lookupD (d : List (String × ℚ)) (k : String) (dflt : ℚ) : ℚ :=
  match d.find? (fun kv => kv.1 == k) with
  | some kv => kv.2
  | none => dflt

/-- Lookup of affinities[sel][lang], returning none when either key is
absent (lines 174-176: the nested membership tests). -/
def affLookup (aff : Affinities) (sel lang : String) : Option ℚ :=
  match aff.find? (fun kv => kv.1 == sel) with
  | none => none
  | some kv =>
    match kv.2.find? (fun kv2 => kv2.1 == lang) with
    | none => none
    | some kv2 => some kv2.2

/-- Clamp into the unit interval: max(min(x, 1), 0) (line 179). -/
def clamp01 (q : ℚ) : ℚ := max (min q 1) 0

/-- The affinity-adjustment loop of lines 174-179, exactly as written:
it enumerates the remaining languages AFTER the chosen one was popped, but
writes into the probability array BEFORE the chosen entry is deleted, so
entry i of the (post-pop) language list is paired with entry i of the
(pre-delete) weight array.  Any trailing weight entries are left unchanged. -/
def adjustLoop (sel : String) (aff : Affinities) : List String → List ℚ → List ℚ
  | [], ps => ps
  | _ :: _, [] => []
  | lang :: langs, p :: ps =>
    (match affLookup aff sel lang with
     | some a => clamp01 (p + a)
     | none => p) :: adjustLoop sel aff langs ps

/-- One iteration of the selection loop (lines 167-181): normalise, draw,
pop the chosen language, run the adjustment loop, then delete the chosen
weight entry.  The error branches model the ValueError raised by
np.random.choice on an empty candidate set, on NaN probabilities (from the
0/0 normalisation at line 168 when all weights are 0), and on negative
normalised probabilities. -/
def selectStep (aff : Affinities) (pickIdx : Nat) (remaining : List String)
    (probs : List ℚ) : Except String (String × List String × List ℚ) :=
  if remaining.length = 0 then .error "a must be non-empty"
  else if probs.sum = 0 then .error "probabilities contain NaN"
  else if ∀ q ∈ probs, 0 ≤ q / probs.sum then
    let c := pickIdx % remaining.length
    let sel := remaining.getD c ""
    let rem2 := remaining.eraseIdx c
    let probs2 := adjustLoop sel aff rem2 probs
    .ok (sel, rem2, probs2.eraseIdx c)
  else .error "probabilities are not non-negative"

/-- The selection loop, iterated num_languages times (line 167), threading
the remaining languages, the weight array and the accumulated selection. -/
def selectLanguagesGo (aff : Affinities) (picks : Nat → Nat) :
    Nat → Nat → List String → List ℚ → List String → Except String (List String)
  | 0, _, _, _, acc => .ok acc.reverse
  | k + 1, step, remaining, probs, acc =>
    match selectStep aff (picks step) remaining probs with
    | .error e => .error e
    | .ok (sel, rem2, probs2) => selectLanguagesGo aff picks k (step + 1) rem2 probs2 (sel :: acc)

/-- select_languages (lines 137-183).  The weight array is initialised from
base_probs over the (copied) language list; picks is the oracle for the
sequence of np.random.choice draws. -/
def select_languages (languages : List String) (base_probs : String → ℚ)
    (num_languages : Nat) (affinities : Affinities) (picks : Nat → Nat) :
    Except String (List String) :=
  selectLanguagesGo affinities picks num_languages 0 languages (languages.map base_probs) []

/-- Byte allocation of lines 244-248: lang_bytes = proportions * total, then
int() truncation entry by entry.  The proportions are non-negative, so
truncation is Int.floor.  No remainder redistribution happens. -/
def allocateBytes (proportions : List ℚ) (totalBytes : ℕ) : List ℤ :=
  proportions.map (fun p => ⌊p * (totalBytes : ℚ)⌋)

/-- The support np.arange(1, total+1) of the language-count draw (line 228). -/
def supportX (total : Nat) : List Nat := (List.range total).map (fun i => i + 1)

/-- Renormalisation probabilities /= probabilities.sum() (line 230). -/
def normalizeW (ws : List ℚ) : List ℚ := ws.map (fun w => w / ws.sum)

/-- The per-repository language-count draw of lines 227-233:
probabilities = gamma.pdf(x, a, scale) over x = 1..total, normalised, then
num_languages = np.random.choice(x, p=probabilities).  The gamma pdf values
are floating-point scipy outputs and enter as the pdfVals argument (they are
strictly positive on the support for the parameters used).  Error branches
model the ValueError raised by np.random.choice on an empty support, on a
size mismatch, on NaN probabilities (0/0 normalisation) and on negative
probabilities. -/
def sample_language_count (total : Nat) (pdfVals : List ℚ) (pick : Nat) :
    Except String Nat :=
  if total = 0 then .error "a must be non-empty"
  else if pdfVals.length ≠ total then .error "a and p must have same size"
  else if pdfVals.sum = 0 then .error "probabilities contain NaN"
  else if ∀ v ∈ pdfVals, 0 ≤ v / pdfVals.sum then
    .ok ((supportX total).getD (pick % total) 1)
  else .error "probabilities are not non-negative"

/-- Shape parameter a = 1.2 of the gamma distribution (line 213). -/
def gammaA : ℚ := 12 / 10

/-- Scale parameter scale = mean_languages / a (line 214). -/
def gammaScale (meanLanguages : ℚ) : ℚ := meanLanguages / gammaA

/-- Oracle for the draws consumed while generating one repository of one
project.  The np-prefixed components model draws against numpy's global
generator (seeded once at line 32); pyTotalBytes models the draw of line 239
against the Python stdlib random module, a second, independent generator
state that this module never seeds. -/
structure GenOracle where
  npRepoCount : Nat → Nat
  npNumLangs : Nat → Nat → Nat
  npSelPick : Nat → Nat → Nat → Nat
  npDirichlet : Nat → Nat → Nat → List ℚ
  pyTotalBytes : Nat → Nat → Nat

/-- Generation of one repository (lines 226-248): draw the language count,
select the languages, draw total_repo_bytes = random.randint(500000,
10000000) from the Python stdlib generator, draw Dirichlet proportions, and
truncate the per-language byte shares to integers. -/
def genRepo (languages : List String) (baseProbs : String → ℚ) (aff : Affinities)
    (totalLangs : Nat) (pdfVals : List ℚ) (numLangPick : Nat) (selPicks : Nat → Nat)
    (pyDraw : Nat) (dirichletDraw : Nat → List ℚ) : Except String Alloc :=
  match sample_language_count totalLangs pdfVals numLangPick with
  | .error e => .error e
  | .ok numLanguages =>
    match select_languages languages baseProbs numLanguages aff selPicks with
    | .error e => .error e
    | .ok sel =>
      let totalRepoBytes : ℕ := 500000 + pyDraw % 9500001
      let props := dirichletDraw sel.length
      .ok (sel.zip (allocateBytes props totalRepoBytes))

/-- Except-valued map over a list, used for the project and repository
loops; it stops at the first error, matching exception propagation. -/
def exMapM (f : α → Except String β) : List α → Except String (List β)
  | [] => .ok []
  | a :: as =>
    match f a with
    | .error e => .error e
    | .ok b =>
      match exMapM f as with
      | .error e => .error e
      | .ok bs => .ok (b :: bs)

/-- generate_dummy_data (lines 186-250).  base_probs is built by applying
the float power **0.5 to each prominence (line 209); that float operation is
modelled by the abstract function sqrtFn.  pdfVals models the (call
invariant) gamma.pdf vector of line 229.  The hard-coded entry of line 217
is inserted first; then for each project p in 1..num_projects a repository
count is drawn by np.random.randint(min_repos, max_repos + 1), which raises
when min_repos exceeds max_repos. -/
def generate_dummy_data (numProjects minRepos maxRepos : Nat)
    (prominence : List (String × ℚ)) (aff : Affinities) (sqrtFn : ℚ → ℚ)
    (pdfVals : List ℚ) (g : GenOracle) : Except String Corpus :=
  let baseProbs : String → ℚ := fun lang => sqrtFn (lookupD prominence lang 0)
  let languages := prominence.map Prod.fst
  let totalLangs := prominence.length
  match exMapM (fun i =>
    let p := i + 1
    if minRepos > maxRepos then .error "low >= high"
    else
      let K := minRepos + g.npRepoCount p % (maxRepos - minRepos + 1)
      match exMapM (fun j =>
        let r := j + 1
        match genRepo languages baseProbs aff totalLangs pdfVals
            (g.npNumLangs p r) (g.npSelPick p r) (g.pyTotalBytes p r)
            (g.npDirichlet p r) with
        | .error e => .error e
        | .ok alloc => .ok (("Repo_" ++ toString r), alloc)) (List.range K) with
      | .error e => .error e
      | .ok repos => .ok (("Project_" ++ toString p), repos)) (List.range numProjects) with
  | .error e => .error e
  | .ok rest => .ok (("Project_0", [("Repo_1", [("Lua", (30000000 : ℤ))])]) :: rest)

/-- The per-draw weight update as the specification words state it (spec §4.1):
after a draw, every remaining candidate's weight — an entry of the weight
array from which the chosen entry has been deleted — is adjusted by the
directional affinity from the just-selected language and clamped into [0,1].
This is the reference point the code's inline loop (lines 174-181) is
compared against: the code instead adjusts the pre-deletion array. -/
def adjustWeightsSpec (sel : String) (aff : Affinities) (rem2 : List String)
    (probs : List ℚ) (c : Nat) : List ℚ :=
  adjustLoop sel aff rem2 (probs.eraseIdx c)

/-- Python list.copy() (line 164): a fresh list holding the same elements. -/
def listCopy (l : List String) : List String := l

/-- State-passing form of select_languages that also returns the final values
of the three caller-visible objects.  Line 164 copies the language list, so
the pop of line 170 mutates only the copy; base_probs is read once at line
165 to build the weight array; affinities is only ever read (lines 174-178).
None of the three is written, so each comes back as it went in. -/
def selectLanguagesFrame (languages : List String) (base_probs : List (String × ℚ))
    (affinities : Affinities) (num_languages : Nat) (picks : Nat → Nat) :
    Except String (List String) × List String × List (String × ℚ) × Affinities :=
  let remaining := listCopy languages
  let probs := remaining.map (fun lang => lookupD base_probs lang 0)
  (selectLanguagesGo affinities picks num_languages 0 remaining probs [],
   languages, base_probs, affinities)

/-- State-passing form of generate_dummy_data returning the final values of
the prominence catalog and the affinity table.  Line 209 builds a fresh dict
from prominence; lines 206-250 only ever read both inputs. -/
def generateDummyDataFrame (numProjects minRepos maxRepos : Nat)
    (prominence : List (String × ℚ)) (aff : Affinities) (sqrtFn : ℚ → ℚ)
    (pdfVals : List ℚ) (g : GenOracle) :
    Except String Corpus × List (String × ℚ) × Affinities :=
  (generate_dummy_data numProjects minRepos maxRepos prominence aff sqrtFn pdfVals g,
   prominence, aff)

/-- Oracle fixture: numpy components fixed, the Python stdlib draw of line
239 left as the parameter py.  Fixing the numpy seed fixes every np
component; it does not fix py, since the random module is a separate
generator state that this script never seeds. -/
def oracleNpFixed (py : Nat) : GenOracle :=
  ⟨fun _ => 0, fun _ _ => 0, fun _ _ _ => 0, fun _ _ _ => [1], fun _ _ => py⟩

/-- Oracle fixture for a two-language repository whose Dirichlet draw is the
even split (a realizable Dirichlet outcome) and whose stdlib draw yields the
odd total 1000001. -/
def oracleEvenSplit : GenOracle :=
  ⟨fun _ => 0, fun _ _ => 1, fun _ _ _ => 0, fun _ _ _ => [1/2, 1/2], fun _ _ => 500001⟩

/-- Oracle fixture for a two-language repository whose Dirichlet draw gives
the first language the tiny share 1/1000000 (a realizable Dirichlet
outcome), exposing truncation to a zero byte count. -/
def oracleTinyShare : GenOracle :=
  ⟨fun _ => 0, fun _ _ => 1, fun _ _ _ => 0,
   fun _ _ _ => [1/1000000, 999999/1000000], fun _ _ => 0⟩

/-! Supporting lemmas. -/

theorem adjustLoop_length (sel : String) (aff : Affinities) :
    ∀ (langs : List String) (ps : List ℚ), (adjustLoop sel aff langs ps).length = ps.length
  | [], _ => rfl
  | _ :: _, [] => rfl
  | lang :: langs, p :: ps => by
    simp only [adjustLoop, List.length_cons, adjustLoop_length sel aff langs ps]

theorem getD_mem_of_lt {l : List String} {c : Nat} (h : c < l.length) : l.getD c "" ∈ l := by
  rw [List.getD_eq_getElem?_getD, List.getElem?_eq_getElem h]
  exact List.getElem_mem h

theorem nodup_getD_not_mem_eraseIdx :
    ∀ (l : List String) (c : Nat), l.Nodup → c < l.length → l.getD c "" ∉ l.eraseIdx c
  | [], c, _, h => by simp at h
  | x :: xs, 0, hnd, _ => by
    simpa [List.eraseIdx] using (List.nodup_cons.mp hnd).1
  | x :: xs, c + 1, hnd, h => by
    have hc : c < xs.length := by simpa using h
    have hnd2 := List.nodup_cons.mp hnd
    have hmem : xs.getD c "" ∈ xs := getD_mem_of_lt hc
    simp only [List.eraseIdx, List.getD_cons_succ, List.mem_cons, not_or]
    exact ⟨fun he => hnd2.1 (he ▸ hmem), nodup_getD_not_mem_eraseIdx xs c hnd2.2 hc⟩

theorem selectStep_ok {aff : Affinities} {pick : Nat} {rem : List String} {probs : List ℚ}
    {sel : String} {rem2 : List String} {probs2 : List ℚ}
    (h : selectStep aff pick rem probs = .ok (sel, rem2, probs2)) :
    0 < rem.length ∧
    sel = rem.getD (pick % rem.length) "" ∧
    rem2 = rem.eraseIdx (pick % rem.length) ∧
    probs2 = (adjustLoop sel aff rem2 probs).eraseIdx (pick % rem.length) := by
  simp only [selectStep] at h
  split at h
  · exact absurd h (by simp)
  · split at h
    · exact absurd h (by simp)
    · split at h
      · have h2 := Except.ok.inj h
        simp only [Prod.mk.injEq] at h2
        obtain ⟨hsel, hrem, hprobs⟩ := h2
        subst hsel
        subst hrem
        subst hprobs
        refine ⟨by omega, rfl, rfl, rfl⟩
      · exact absurd h (by simp)

theorem selectGo_ok_spec (aff : Affinities) (picks : Nat → Nat) :
    ∀ (k step : Nat) (rem : List String) (probs : List ℚ) (acc out : List String),
      rem.Nodup →
      selectLanguagesGo aff picks k step rem probs acc = .ok out →
      ∃ picked : List String,
        out = acc.reverse ++ picked ∧ picked.length = k ∧ picked.Nodup ∧
          ∀ x ∈ picked, x ∈ rem
  | 0, _, rem, probs, acc, out, _, hout => by
    refine ⟨[], ?_, rfl, List.nodup_nil, by simp⟩
    have h := Except.ok.inj hout
    simp [← h]
  | k + 1, step, rem, probs, acc, out, hnd, hout => by
    rw [selectLanguagesGo] at hout
    cases hstep : selectStep aff (picks step) rem probs with
    | error e => rw [hstep] at hout; exact absurd hout (by simp)
    | ok trip =>
      obtain ⟨sel, rem2, probs2⟩ := trip
      rw [hstep] at hout
      obtain ⟨hpos, hsel, hrem, _⟩ := selectStep_ok hstep
      have hc : picks step % rem.length < rem.length := Nat.mod_lt _ hpos
      have hnd2 : rem2.Nodup := hrem ▸ (List.eraseIdx_sublist rem _).nodup hnd
      obtain ⟨picked, hout2, hlen, hpnd, hmem⟩ :=
        selectGo_ok_spec aff picks k (step + 1) rem2 probs2 (sel :: acc) out hnd2 hout
      refine ⟨sel :: picked, ?_, by simp [hlen], ?_, ?_⟩
      · simpa using hout2
      · refine List.nodup_cons.mpr ⟨fun hin => ?_, hpnd⟩
        have : sel ∈ rem.eraseIdx (picks step % rem.length) := hrem ▸ hmem sel hin
        exact (hsel ▸ nodup_getD_not_mem_eraseIdx rem _ hnd hc) this
      · intro x hx
        rcases List.mem_cons.mp hx with hx1 | hx2
        · exact hx1 ▸ hsel ▸ getD_mem_of_lt hc
        · exact (List.eraseIdx_sublist rem _).subset (hrem ▸ hmem x hx2)

theorem selectGo_overflow (aff : Affinities) (picks : Nat → Nat) :
    ∀ (k step : Nat) (rem : List String) (probs : List ℚ) (acc out : List String),
      rem.length < k →
      selectLanguagesGo aff picks k step rem probs acc ≠ .ok out
  | 0, _, _, _, _, _, hk => by omega
  | k + 1, step, rem, probs, acc, out, hk => by
    rw [selectLanguagesGo]
    cases hstep : selectStep aff (picks step) rem probs with
    | error e => simp
    | ok trip =>
      obtain ⟨sel, rem2, probs2⟩ := trip
      obtain ⟨hpos, _, hrem, _⟩ := selectStep_ok hstep
      have hc : picks step % rem.length < rem.length := Nat.mod_lt _ hpos
      have hlen2 : rem2.length = rem.length - 1 := by
        rw [hrem, List.length_eraseIdx, if_pos hc]
      exact selectGo_overflow aff picks k (step + 1) rem2 probs2 (sel :: acc) out (by omega)

theorem select_languages_ok_spec {languages : List String} {base_probs : String → ℚ}
    {num_languages : Nat} {affinities : Affinities} {picks : Nat → Nat} {out : List String}
    (hnd : languages.Nodup)
    (h : select_languages languages base_probs num_languages affinities picks = .ok out) :
    out.length = num_languages ∧ out.Nodup ∧ ∀ x ∈ out, x ∈ languages := by
  obtain ⟨picked, hout, hlen, hpnd, hmem⟩ :=
    selectGo_ok_spec affinities picks num_languages 0 languages
      (languages.map base_probs) [] out hnd h
  simp only [List.reverse_nil, List.nil_append] at hout
  exact hout ▸ ⟨hlen, hpnd, hmem⟩

theorem supportX_getD (total i : Nat) (h : i < total) : (supportX total).getD i 1 = i + 1 := by
  rw [supportX, List.getD_eq_getElem?_getD, List.getElem?_map, List.getElem?_range h]
  rfl

theorem sample_language_count_ok {total : Nat} {pdfVals : List ℚ} {pick : Nat} {n : Nat}
    (h : sample_language_count total pdfVals pick = .ok n) : 1 ≤ n ∧ n ≤ total := by
  simp only [sample_language_count] at h
  split at h
  · exact absurd h (by simp)
  · split at h
    · exact absurd h (by simp)
    · split at h
      · exact absurd h (by simp)
      · split at h
        · have htot : total ≠ 0 := by assumption
          have hlt : pick % total < total := Nat.mod_lt _ (by omega)
          have hn := Except.ok.inj h
          rw [supportX_getD total _ hlt] at hn
          omega
        · exact absurd h (by simp)

theorem sum_map_div (l : List ℚ) (c : ℚ) : (l.map fun w => w / c).sum = l.sum / c := by
  induction l with
  | nil => simp
  | cons x xs ih => simp [ih, add_div]

theorem normalizeW_sum (ws : List ℚ) (h : ws.sum ≠ 0) : (normalizeW ws).sum = 1 := by
  rw [normalizeW, sum_map_div, div_self h]

theorem sum_floor_le (l : List ℚ) : ((l.map fun p => ⌊p⌋).sum : ℚ) ≤ l.sum := by
  induction l with
  | nil => simp
  | cons x xs ih =>
    simp only [List.map_cons, List.sum_cons, Int.cast_add]
    exact add_le_add (Int.floor_le x) ih

theorem sum_sub_length_le_sum_floor (l : List ℚ) :
    l.sum - l.length ≤ ((l.map fun p => ⌊p⌋).sum : ℚ) := by
  induction l with
  | nil => simp
  | cons x xs ih =>
    simp only [List.map_cons, List.sum_cons, List.length_cons, Int.cast_add, Nat.cast_add,
      Nat.cast_one]
    have h1 : x - 1 < ((⌊x⌋ : ℤ) : ℚ) := Int.sub_one_lt_floor x
    linarith

theorem sum_sub_length_lt_sum_floor (l : List ℚ) (h : l ≠ []) :
    l.sum - l.length < ((l.map fun p => ⌊p⌋).sum : ℚ) := by
  cases l with
  | nil => exact absurd rfl h
  | cons x xs =>
    have h1 : x - 1 < ((⌊x⌋ : ℤ) : ℚ) := Int.sub_one_lt_floor x
    have h2 := sum_sub_length_le_sum_floor xs
    simp only [List.map_cons, List.sum_cons, List.length_cons, Int.cast_add, Nat.cast_add,
      Nat.cast_one]
    linarith

theorem sum_map_mul_const (l : List ℚ) (c : ℚ) : (l.map fun p => p * c).sum = l.sum * c := by
  induction l with
  | nil => simp
  | cons x xs ih => simp [ih, add_mul]

theorem intCast_list_sum (l : List ℤ) : ((l.sum : ℤ) : ℚ) = (l.map fun z => (z : ℚ)).sum := by
  induction l with
  | nil => simp
  | cons x xs ih => simp [ih]

theorem allocateBytes_sum_bounds (props : List ℚ) (T : ℕ)
    (hsum : props.sum = 1) (hne : props ≠ []) :
    (allocateBytes props T).sum ≤ (T : ℤ) ∧
      (T : ℤ) - props.length < (allocateBytes props T).sum := by
  have hmap : allocateBytes props T = (props.map fun p => p * (T : ℚ)).map fun q => ⌊q⌋ := by
    rw [allocateBytes, List.map_map]
    rfl
  have hsum2 : (props.map fun p => p * (T : ℚ)).sum = (T : ℚ) := by
    rw [sum_map_mul_const, hsum, one_mul]
  have hlen : (props.map fun p => p * (T : ℚ)).length = props.length := List.length_map _ _
  have hne2 : (props.map fun p => p * (T : ℚ)) ≠ [] := by
    intro hc
    exact hne (List.map_eq_nil_iff.mp hc)
  constructor
  · have h1 := sum_floor_le (props.map fun p => p * (T : ℚ))
    rw [hsum2] at h1
    rw [hmap]
    exact_mod_cast h1
  · have h1 := sum_sub_length_lt_sum_floor (props.map fun p => p * (T : ℚ)) hne2
    rw [hsum2, hlen] at h1
    rw [hmap]
    exact_mod_cast h1

theorem allocateBytes_nonneg (props : List ℚ) (T : ℕ) (h : ∀ p ∈ props, 0 ≤ p) :
    ∀ b ∈ allocateBytes props T, 0 ≤ b := by
  intro b hb
  obtain ⟨p, hp, rfl⟩ := List.mem_map.mp hb
  exact Int.floor_nonneg.mpr (mul_nonneg (h p hp) (by positivity))

theorem allocateBytes_length (props : List ℚ) (T : ℕ) :
    (allocateBytes props T).length = props.length := List.length_map _ _

theorem exMapM_ok_length {α β : Type} {f : α → Except String β} :
    ∀ {l : List α} {out : List β}, exMapM f l = .ok out → out.length = l.length
  | [], out, h => by
    have h2 := Except.ok.inj h
    simp [← h2]
  | a :: as, out, h => by
    rw [exMapM] at h
    cases hfa : f a with
    | error e => rw [hfa] at h; exact absurd h (by simp)
    | ok b =>
      rw [hfa] at h
      cases hrest : exMapM f as with
      | error e => rw [hrest] at h; exact absurd h (by simp)
      | ok bs =>
        rw [hrest] at h
        have h2 := Except.ok.inj h
        simp [← h2, exMapM_ok_length hrest]

theorem genRepo_ok_spec {languages : List String} {baseProbs : String → ℚ} {aff : Affinities}
    {totalLangs : Nat} {pdfVals : List ℚ} {numLangPick : Nat} {selPicks : Nat → Nat}
    {pyDraw : Nat} {dirichletDraw : Nat → List ℚ} {alloc : Alloc}
    (hnd : languages.Nodup)
    (hdlen : ∀ n, (dirichletDraw n).length = n)
    (hdpos : ∀ n, ∀ q ∈ dirichletDraw n, 0 ≤ q)
    (h : genRepo languages baseProbs aff totalLangs pdfVals numLangPick selPicks pyDraw
      dirichletDraw = .ok alloc) :
    alloc ≠ [] ∧ ∀ kv ∈ alloc, 0 ≤ kv.2 := by
  simp only [genRepo] at h
  split at h
  · exact absurd h (by simp)
  · split at h
    · exact absurd h (by simp)
    · rename_i x1 nl hs x2 sel hsel
      have halloc := Except.ok.inj h
      have hnl := sample_language_count_ok hs
      have hsello := select_languages_ok_spec hnd hsel
      constructor
      · intro hc
        rw [hc] at halloc
        have hzl : (sel.zip (allocateBytes (dirichletDraw sel.length)
            (500000 + pyDraw % 9500001))).length = sel.length := by
          rw [List.length_zip, allocateBytes_length, hdlen]
          omega
        rw [halloc] at hzl
        simp at hzl
        omega
      · intro kv hkv
        rw [← halloc] at hkv
        obtain ⟨l, b⟩ := kv
        have hb := (List.of_mem_zip hkv).2
        exact allocateBytes_nonneg _ _ (hdpos sel.length) b hb

theorem generate_ok_spec {numProjects minRepos maxRepos : Nat}
    {prominence : List (String × ℚ)} {aff : Affinities} {sqrtFn : ℚ → ℚ}
    {pdfVals : List ℚ} {g : GenOracle} {out : Corpus}
    (h : generate_dummy_data numProjects minRepos maxRepos prominence aff sqrtFn pdfVals g =
      .ok out) :
    out.head? = some ("Project_0", [("Repo_1", [("Lua", (30000000 : ℤ))])]) ∧
      out.length = numProjects + 1 := by
  simp only [generate_dummy_data] at h
  cases hm : exMapM (fun i =>
      if minRepos > maxRepos then Except.error "low >= high"
      else
        match exMapM (fun j =>
          match genRepo (prominence.map Prod.fst)
              (fun lang => sqrtFn (lookupD prominence lang 0)) aff prominence.length pdfVals
              (g.npNumLangs (i + 1) (j + 1)) (g.npSelPick (i + 1) (j + 1))
              (g.pyTotalBytes (i + 1) (j + 1)) (g.npDirichlet (i + 1) (j + 1)) with
          | .error e => .error e
          | .ok alloc => .ok (("Repo_" ++ toString (j + 1)), alloc))
          (List.range (minRepos + g.npRepoCount (i + 1) % (maxRepos - minRepos + 1))) with
        | .error e => .error e
        | .ok repos => .ok (("Project_" ++ toString (i + 1)), repos)) (List.range numProjects) with
  | error e => rw [hm] at h; exact absurd h (by simp)
  | ok rest =>
    rw [hm] at h
    have h2 := Except.ok.inj h
    rw [← h2]
    refine ⟨rfl, ?_⟩
    have := exMapM_ok_length hm
    simp only [List.length_range] at this
    simp [this]

/-! Claim theorems. -/

/-- C1, counterexample.  A run in which the Dirichlet draw is the even split
over two languages and the stdlib byte draw yields the odd budget
500000 + 500001 % 9500001 = 1000001 produces the allocation
{A: 500000, B: 500000}: the counts sum to 1000000, not to the sampled
budget 1000001.  Each count is int-truncated individually (line 248) and no
rounding remainder is ever reassigned. -/
theorem claim_C1_counterexample :
    generate_dummy_data 1 1 1 [("A", 1), ("B", 1)] [] id [1, 1] oracleEvenSplit =
      .ok [("Project_0", [("Repo_1", [("Lua", 30000000)])]),
        ("Project_1", [("Repo_1", [("A", 500000), ("B", 500000)])])] ∧
    500000 + oracleEvenSplit.pyTotalBytes 1 1 % 9500001 = 1000001 ∧
    ((500000 : ℤ) + 500000 ≠ (1000001 : ℤ)) := by
  refine ⟨by with_unfolding_all rfl, by with_unfolding_all rfl, by decide⟩

/-- C1, amended: for any Dirichlet proportion vector (non-empty, summing to
1) the truncated byte counts of lines 244-248 sum to at most the total byte
budget, and fall short of it by fewer than the number of selected languages;
exact equality does not hold in general. -/
theorem claim_C1_amended (props : List ℚ) (T : ℕ)
    (hsum : props.sum = 1) (hne : props ≠ []) :
    (allocateBytes props T).sum ≤ (T : ℤ) ∧
      (T : ℤ) - props.length < (allocateBytes props T).sum :=
  allocateBytes_sum_bounds props T hsum hne

/-- C1, witness for the amended theorem at the even split over two languages
with budget 1000001. -/
theorem claim_C1_witness :
    (allocateBytes [1/2, 1/2] 1000001).sum ≤ ((1000001 : ℕ) : ℤ) ∧
      ((1000001 : ℕ) : ℤ) - (([1/2, 1/2] : List ℚ)).length <
        (allocateBytes [1/2, 1/2] 1000001).sum :=
  claim_C1_amended [1/2, 1/2] 1000001 (by norm_num) (by simp)

/-- C2: two runs with identical parameters and identical numpy draws (the
only generator np.random.seed(42) at line 32 fixes) still differ whenever
the unseeded Python stdlib draw of line 239 (random.randint) differs, so
fixing the pseudo-random seed at process start does not make the output
corpora byte-for-byte identical. -/
theorem claim_C2 :
    generate_dummy_data 1 1 1 [("Lua", 1)] [] id [1] (oracleNpFixed 0) =
      .ok [("Project_0", [("Repo_1", [("Lua", 30000000)])]),
        ("Project_1", [("Repo_1", [("Lua", 500000)])])] ∧
    generate_dummy_data 1 1 1 [("Lua", 1)] [] id [1] (oracleNpFixed 1) =
      .ok [("Project_0", [("Repo_1", [("Lua", 30000000)])]),
        ("Project_1", [("Repo_1", [("Lua", 500001)])])] ∧
    ((500000 : ℤ) ≠ (500001 : ℤ)) := by
  refine ⟨by with_unfolding_all rfl, by with_unfolding_all rfl, by decide⟩

/-- C3, counterexample.  A run in which the Dirichlet draw gives language A
the share 1/1000000 of a 500000-byte budget produces the allocation
{A: 0, B: 499999}: the byte count 0 is not a positive integer, so no
positive min_bytes_per_language floor is respected (none exists in the
code). -/
theorem claim_C3_counterexample :
    generate_dummy_data 1 1 1 [("A", 1), ("B", 1)] [] id [1, 1] oracleTinyShare =
      .ok [("Project_0", [("Repo_1", [("Lua", 30000000)])]),
        ("Project_1", [("Repo_1", [("A", 0), ("B", 499999)])])] ∧
    ¬ (0 < (0 : ℤ)) := by
  refine ⟨by with_unfolding_all rfl, by decide⟩

/-- C3, amended: every repository allocation produced by a successful
genRepo run is non-empty (the language-count draw is at least 1), and every
byte count is a non-negative integer; no positive lower bound holds and no
minimum-bytes floor is reserved. -/
theorem claim_C3_amended {languages : List String} {baseProbs : String → ℚ}
    {aff : Affinities} {totalLangs : Nat} {pdfVals : List ℚ} {numLangPick : Nat}
    {selPicks : Nat → Nat} {pyDraw : Nat} {dirichletDraw : Nat → List ℚ} {alloc : Alloc}
    (hnd : languages.Nodup)
    (hdlen : ∀ n, (dirichletDraw n).length = n)
    (hdpos : ∀ n, ∀ q ∈ dirichletDraw n, 0 ≤ q)
    (h : genRepo languages baseProbs aff totalLangs pdfVals numLangPick selPicks pyDraw
      dirichletDraw = .ok alloc) :
    alloc ≠ [] ∧ ∀ kv ∈ alloc, 0 ≤ kv.2 :=
  genRepo_ok_spec hnd hdlen hdpos h

/-- C3, witness for the amended theorem on a concrete one-language
repository. -/
theorem claim_C3_witness :
    ([("A", (500000 : ℤ))] : Alloc) ≠ [] ∧
      ∀ kv ∈ ([("A", (500000 : ℤ))] : Alloc), 0 ≤ kv.2 :=
  @claim_C3_amended ["A"] (fun _ => 1) [] 1 [1] 0 (fun _ => 0) 0
    (fun n => List.replicate n 1) [("A", (500000 : ℤ))]
    (by decide) (fun n => List.length_replicate n 1)
    (fun n q hq => by rw [List.eq_of_mem_replicate hq]; norm_num)
    (by with_unfolding_all rfl)

/-- C4: when the affinity adjustment clamps the single remaining
candidate's weight to 0 (base weights 1/2 and 1; affinity from the chosen
language A to the remaining language B is -1/2; the first draw picks A,
which has normalized probability 2/3), the next iteration normalizes by the
zero sum (line 168), yielding NaN probabilities, and np.random.choice
raises instead of falling back to a uniform draw: the draw does not
succeed. -/
theorem claim_C4 :
    select_languages ["B", "A"] (fun l => if l = "A" then 1 else 1/2) 2
      [("A", [("B", -(1 : ℚ)/2)])] (fun st => if st = 0 then 1 else 0) =
      .error "probabilities contain NaN" := by
  with_unfolding_all rfl

/-- C5: whenever generate_dummy_data returns a corpus, its first top-level
entry is the hard-coded project Project_0 with the single repository
Repo_1 allocated {Lua: 30000000} (line 217), and the corpus holds
numProjects + 1 top-level projects, for every parameter choice. -/
theorem claim_C5 {numProjects minRepos maxRepos : Nat}
    {prominence : List (String × ℚ)} {aff : Affinities} {sqrtFn : ℚ → ℚ}
    {pdfVals : List ℚ} {g : GenOracle} {out : Corpus}
    (h : generate_dummy_data numProjects minRepos maxRepos prominence aff sqrtFn pdfVals g =
      .ok out) :
    out.head? = some ("Project_0", [("Repo_1", [("Lua", (30000000 : ℤ))])]) ∧
      out.length = numProjects + 1 :=
  generate_ok_spec h

/-- C5, witness on a concrete run with numProjects = 1. -/
theorem claim_C5_witness :
    ([("Project_0", [("Repo_1", [("Lua", (30000000 : ℤ))])]),
      ("Project_1", [("Repo_1", [("Lua", (500000 : ℤ))])])] : Corpus).head? =
        some ("Project_0", [("Repo_1", [("Lua", (30000000 : ℤ))])]) ∧
      ([("Project_0", [("Repo_1", [("Lua", (30000000 : ℤ))])]),
        ("Project_1", [("Repo_1", [("Lua", (500000 : ℤ))])])] : Corpus).length = 1 + 1 :=
  @claim_C5 1 1 1 [("Lua", 1)] [] id [1] (oracleNpFixed 0)
    [("Project_0", [("Repo_1", [("Lua", (30000000 : ℤ))])]),
      ("Project_1", [("Repo_1", [("Lua", (500000 : ℤ))])])]
    (by with_unfolding_all rfl)

/-- C6, counterexample: a requested language count of 0 — a malformed input
per the claim — does not fail with a descriptive error: select_languages
runs its loop zero times and returns an empty selection successfully. -/
theorem claim_C6_counterexample :
    select_languages ["Python"] (fun _ => 1) 0 [] (fun _ => 0) = .ok [] := by
  with_unfolding_all rfl

/-- C6, amended: no explicit input validation exists.  An empty catalog
makes the first draw fail inside np.random.choice with that library's
generic message; a requested count of 0 silently succeeds with an empty
selection; a count exceeding the catalog size never returns a selection
(the loop exhausts the candidates and the draw on an empty candidate set
raises) — none of these produces an error naming the offending
parameter. -/
theorem claim_C6_amended :
    (∀ (bp : String → ℚ) (aff : Affinities) (picks : Nat → Nat),
      select_languages [] bp 1 aff picks = .error "a must be non-empty") ∧
    (∀ (bp : String → ℚ) (aff : Affinities) (picks : Nat → Nat),
      select_languages ["A"] bp 0 aff picks = .ok []) ∧
    (∀ (languages : List String) (bp : String → ℚ) (n : Nat) (aff : Affinities)
      (picks : Nat → Nat) (out : List String), languages.length < n →
      select_languages languages bp n aff picks ≠ .ok out) := by
  refine ⟨fun bp aff picks => rfl, fun bp aff picks => rfl, ?_⟩
  intro languages bp n aff picks out hlt
  exact selectGo_overflow aff picks n 0 languages (languages.map bp) [] out hlt

/-- C6, witness for the amended theorem: requesting 3 languages from a
2-language catalog cannot return a selection. -/
theorem claim_C6_witness :
    select_languages ["A", "B"] (fun _ => 1) 3 [] (fun _ => 0) ≠
      .ok ["A", "B", "A"] :=
  claim_C6_amended.2.2 ["A", "B"] (fun _ => 1) 3 [] (fun _ => 0) ["A", "B", "A"] (by decide)

/-- C7, counterexample: a count of 2 over a catalog of size 2 (count does
not exceed the catalog size) with positive base weights 3/4 and 1 fails
instead of returning a length-2 sequence: the first draw picks C (its
normalized probability is 4/7), the affinity C→D = -3/4 clamps the last
remaining weight to 0, and the next normalization divides by zero, so
np.random.choice raises. -/
theorem claim_C7_counterexample :
    select_languages ["D", "C"] (fun l => if l = "C" then 1 else 3/4) 2
      [("C", [("D", -(3 : ℚ)/4)])] (fun st => if st = 0 then 1 else 0) =
      .error "probabilities contain NaN" := by
  with_unfolding_all rfl

/-- C7, amended: whenever select_languages does return a selection over a
duplicate-free catalog, it is an ordered sequence of pairwise-distinct
catalog languages of length exactly count, and a count exceeding the
catalog size never returns a selection; success for count up to the catalog
size is however not guaranteed (the all-zero clamped-weight case fails). -/
theorem claim_C7_amended (languages : List String) (bp : String → ℚ) (n : Nat)
    (aff : Affinities) (picks : Nat → Nat) (out : List String)
    (hnd : languages.Nodup) :
    (select_languages languages bp n aff picks = .ok out →
      out.length = n ∧ out.Nodup ∧ ∀ x ∈ out, x ∈ languages) ∧
    (languages.length < n → select_languages languages bp n aff picks ≠ .ok out) := by
  refine ⟨fun h => select_languages_ok_spec hnd h, fun hlt => ?_⟩
  exact selectGo_overflow aff picks n 0 languages (languages.map bp) [] out hlt

/-- C7, witness for the amended theorem on a concrete successful
selection of 2 languages from a 2-language catalog. -/
theorem claim_C7_witness :
    (["A", "B"] : List String).length = 2 ∧ (["A", "B"] : List String).Nodup ∧
      ∀ x ∈ (["A", "B"] : List String), x ∈ (["A", "B"] : List String) :=
  (claim_C7_amended ["A", "B"] (fun _ => 1) 2 [] (fun _ => 0) ["A", "B"]
    (by decide)).1 (by with_unfolding_all rfl)

/-- C8: the inline adjustment loop pairs each remaining language with the
weight entry of the same index in the PRE-deletion weight array (lines
175-181), so when the chosen index is not the last, remaining candidates
receive their successor's affinity adjustment and the adjustment aimed at
the candidate right after the chosen index lands on the weight slot that is
deleted immediately afterwards.  Concretely, choosing A out of [A, B, C]
with affinity A→B = -1/2 leaves the code's weights at [1, 1], whereas the
specified per-candidate adjust-and-clamp yields [1/2, 1]. -/
theorem claim_C8 :
    selectStep [("A", [("B", -(1 : ℚ)/2)])] 0 ["A", "B", "C"] [1, 1, 1] =
      .ok ("A", ["B", "C"], [1, 1]) ∧
    adjustWeightsSpec "A" [("A", [("B", -(1 : ℚ)/2)])] ["B", "C"] [1, 1, 1] 0 =
      [1/2, 1] ∧
    ((1 : ℚ) ≠ 1/2) := by
  refine ⟨by with_unfolding_all rfl, by with_unfolding_all rfl, by norm_num⟩

/-- C9: the language-count draw uses the gamma shape a = 1.2 < 2
(line 213); the discretized pdf mass over the support 1..total is
renormalized to sum to 1 (line 230); and the draw always returns an integer
in [1, total] (the support of line 228), given the strictly positive pdf
values the gamma density takes on that support. -/
theorem claim_C9 (total : Nat) (pdfVals : List ℚ) (pick : Nat)
    (h0 : 0 < total) (h1 : pdfVals.length = total) (h2 : ∀ v ∈ pdfVals, 0 < v) :
    gammaA < 2 ∧ (normalizeW pdfVals).sum = 1 ∧
      ∃ n, sample_language_count total pdfVals pick = .ok n ∧ 1 ≤ n ∧ n ≤ total := by
  have hne : pdfVals ≠ [] := by
    intro hc
    rw [hc] at h1
    simp at h1
    omega
  have hpos : 0 < pdfVals.sum := List.sum_pos pdfVals h2 hne
  have hsum : pdfVals.sum ≠ 0 := ne_of_gt hpos
  refine ⟨by norm_num [gammaA], normalizeW_sum pdfVals hsum, ?_⟩
  have hlt : pick % total < total := Nat.mod_lt _ h0
  have hok : sample_language_count total pdfVals pick = .ok (pick % total + 1) := by
    rw [sample_language_count, if_neg (by omega), if_neg (by omega),
      if_neg (by exact hsum), if_pos, supportX_getD total _ hlt]
    intro v hv
    exact le_of_lt (div_pos (h2 v hv) hpos)
  exact ⟨pick % total + 1, hok, by omega, by omega⟩

/-- C9, witness at total = 3, pdf values [1, 1, 1], pick 5. -/
theorem claim_C9_witness :
    gammaA < 2 ∧ (normalizeW [1, 1, 1]).sum = 1 ∧
      ∃ n, sample_language_count 3 [1, 1, 1] 5 = .ok n ∧ 1 ≤ n ∧ n ≤ 3 :=
  claim_C9 3 [1, 1, 1] 5 (by decide) (by decide)
    (fun v hv => by
      rcases List.mem_cons.mp hv with h | hv2
      · rw [h]; norm_num
      · rcases List.mem_cons.mp hv2 with h | hv3
        · rw [h]; norm_num
        · rcases List.mem_cons.mp hv3 with h | hv4
          · rw [h]; norm_num
          · exact absurd hv4 (List.not_mem_nil v))

/-- C10: neither select_languages nor generate_dummy_data writes to the
language catalog, the base-probability table or the affinity table: the
language list is copied before the pops (line 164), the weight array is a
fresh array built from the dict values (line 165), and both functions only
read the catalog and the affinities, so after a run each caller-visible
input comes back unchanged (and the selection computed on the copy agrees
with select_languages on the looked-up weights). -/
theorem claim_C10 (languages : List String) (base_probs : List (String × ℚ))
    (affinities : Affinities) (num_languages : Nat) (picks : Nat → Nat)
    (numProjects minRepos maxRepos : Nat) (prominence : List (String × ℚ))
    (aff : Affinities) (sqrtFn : ℚ → ℚ) (pdfVals : List ℚ) (g : GenOracle) :
    (selectLanguagesFrame languages base_probs affinities num_languages picks).2 =
      (languages, base_probs, affinities) ∧
    (selectLanguagesFrame languages base_probs affinities num_languages picks).1 =
      select_languages (listCopy languages) (fun lang => lookupD base_probs lang 0)
        num_languages affinities picks ∧
    (generateDummyDataFrame numProjects minRepos maxRepos prominence aff sqrtFn pdfVals
        g).2 = (prominence, aff) :=
  ⟨rfl, rfl, rfl⟩

end TribalKnowledge
